import Mathlib

/-!
Shallow embedding of the CHIP-8 interpreter core (src/chip8.c) and proofs
about its opcode semantics, stack discipline, timer cadence and framebuffer
invariants.

Modelling conventions:
* C machine integers become `Nat` with explicit truncation at stores:
  a store into a `uint8_t` location is masked `% 256`, a store into a
  `uint16_t` location is masked `% 65536`; reads are raw.
* C arrays (`memory[4096]`, `stack[16]`, `registers[16]`, `vram[64*32]`,
  `keypad[16]`) become total functions `Nat → Nat` updated pointwise with
  `upd`; the C array bounds are reasoned about separately via explicit
  accessed-index lists, so an out-of-bounds access of the C program is
  visible as an index `≥` the array length rather than being erased.
* `SDL_Log` calls are side effects without machine-state content; the two
  error reports ("Stack underflow!" in chip8_op_pop, "Stack overflow!" in
  chip8_op_push) are modelled as emitted `Chip8Event`s, all other logging
  is dropped.
* `rand()` (only used by CXNN) is an environment input threaded into
  `chip8_execute` as an extra argument, and the wall-clock elapsed time
  measured by `chip8_tick` is an environment input of type `ℚ` (the C
  `double` arithmetic on multiples of 1/60 is represented exactly by
  rationals; the facts proved below are insensitive to rounding of the
  represented values).
* The process-wide static `last_timer_update` accumulator is passed in and
  returned explicitly by `chip8_tick`.
* C `for` loops become structural recursion on an explicit fuel counter
  (the number of remaining iterations) together with the running loop
  index, preserving iteration order.
-/

/-- The CHIP-8 machine state, mirroring `struct chip8_state` in src/chip8.c. -/
structure Chip8State where
  memory : Nat → Nat
  program_counter : Nat
  index_register : Nat
  stack : Nat → Nat
  stack_ptr : Nat
  delay_timer : Nat
  sound_timer : Nat
  registers : Nat → Nat
  vram : Nat → Nat
  keypad : Nat → Nat

/-- Error events reported by the stack handlers via SDL_Log. -/
inductive Chip8Event where
  | stackUnderflow
  | stackOverflow
deriving DecidableEq, Repr

/-- Pointwise array update: `upd f i v` is the array `f` with cell `i` set to `v`. -/
def upd (f : Nat → Nat) (i v : Nat) : Nat → Nat :=
  fun j => if j = i then v else f j

theorem upd_same (f : Nat → Nat) (i v : Nat) : upd f i v i = v := by
  simp [upd]

theorem upd_ne (f : Nat → Nat) (i v j : Nat) (h : j ≠ i) : upd f i v j = f j := by
  simp [upd, h]

/-- `START_ADDRESS = 0x200`. -/
def START_ADDRESS : Nat := 0x200

/-- `TIMER_DECREMENT_INTERVAL = 1.0 / 60.0` (60 Hz). -/
def TIMER_DECREMENT_INTERVAL : ℚ := 1 / 60

/-- `chip8_init`: zero memory, stack, registers, keypad and vram; set
`program_counter` to `START_ADDRESS` and the remaining scalars to 0
(the `srand` call has no machine-state content). -/
def chip8_init (s : Chip8State) : Chip8State :=
  { memory := fun i => if i < 4096 then 0 else s.memory i
    stack := fun i => if i < 16 then 0 else s.stack i
    registers := fun i => if i < 16 then 0 else s.registers i
    keypad := fun i => if i < 16 then 0 else s.keypad i
    vram := fun i => if i < 64 * 32 then 0 else s.vram i
    program_counter := START_ADDRESS
    index_register := 0
    stack_ptr := 0
    delay_timer := 0
    sound_timer := 0 }

/-- ROM loading loop body of `chip8_load_rom`: write the byte list into
memory starting at `addr`. -/
def chip8_load_bytes (mem : Nat → Nat) (addr : Nat) : List Nat → (Nat → Nat)
  | [] => mem
  | b :: rest => chip8_load_bytes (upd mem addr (b % 256)) (addr + 1) rest

/-- `chip8_load_rom`: copy the ROM bytes into memory starting at `START_ADDRESS`. -/
def chip8_load_rom (s : Chip8State) (rom : List Nat) : Chip8State :=
  { s with memory := chip8_load_bytes s.memory START_ADDRESS rom }

/-! ## Instruction decoding -/

/-- `chip8_decode_x`: bits 8–11. -/
def chip8_decode_x (instruction : Nat) : Nat := (instruction >>> 8) &&& 0x0F

/-- `chip8_decode_y`: bits 4–7. -/
def chip8_decode_y (instruction : Nat) : Nat := (instruction >>> 4) &&& 0x0F

/-- `chip8_decode_n`: bits 0–3. -/
def chip8_decode_n (instruction : Nat) : Nat := instruction &&& 0x0F

/-- `chip8_decode_nn`: bits 0–7. -/
def chip8_decode_nn (instruction : Nat) : Nat := instruction &&& 0xFF

/-- `chip8_decode_nnn`: bits 0–11. -/
def chip8_decode_nnn (instruction : Nat) : Nat := instruction &&& 0x0FFF

/-- The `first_nibble` local of `chip8_execute`: bits 12–15. -/
def chip8_decode_op (instruction : Nat) : Nat := (instruction >>> 12) &&& 0x0F

/-! ## Opcode handlers -/

/-- `00E0`: clear the 64×32 framebuffer (`sizeof(state->vram)` = 2048 cells). -/
def chip8_op_cls (s : Chip8State) : Chip8State :=
  { s with vram := fun i => if i < 64 * 32 then 0 else s.vram i }

/-- `00EE`: pop the return address into `program_counter`; at
`stack_ptr == 0` report a stack underflow and leave the state unchanged.
`--state->stack_ptr` is a `uint8_t` pre-decrement. -/
def chip8_op_pop (s : Chip8State) : Chip8State × List Chip8Event :=
  if s.stack_ptr = 0 then
    (s, [.stackUnderflow])
  else
    let sp := (s.stack_ptr + 255) % 256
    ({ s with stack_ptr := sp, program_counter := s.stack sp % 65536 }, [])

/-- `1NNN`: jump. -/
def chip8_op_jmp (s : Chip8State) (address : Nat) : Chip8State :=
  { s with program_counter := address % 65536 }

/-- `2NNN`: push `program_counter` and jump.  The C overflow guard is
`state->stack_ptr >= sizeof(state->stack)` and `sizeof` of the
`uint16_t stack[16]` array is its **byte** count 32, so the guard only
trips at `stack_ptr ≥ 32`, not at the 16-entry capacity. -/
def chip8_op_push (s : Chip8State) (address : Nat) : Chip8State × List Chip8Event :=
  if 32 ≤ s.stack_ptr then
    (s, [.stackOverflow])
  else
    ({ s with stack := upd s.stack s.stack_ptr (s.program_counter % 65536)
              stack_ptr := (s.stack_ptr + 1) % 256
              program_counter := address % 65536 }, [])

/-- `3XNN`: skip if `Vx == nn`. -/
def chip8_op_skip_equal (s : Chip8State) (reg value : Nat) : Chip8State :=
  if s.registers reg = value then
    { s with program_counter := (s.program_counter + 2) % 65536 }
  else s

/-- `4XNN`: skip if `Vx != nn`. -/
def chip8_op_skip_not_equal (s : Chip8State) (reg value : Nat) : Chip8State :=
  if s.registers reg ≠ value then
    { s with program_counter := (s.program_counter + 2) % 65536 }
  else s

/-- `5XY0`: skip if `Vx == Vy`. -/
def chip8_op_skip_reg_equal (s : Chip8State) (reg_x reg_y : Nat) : Chip8State :=
  if s.registers reg_x = s.registers reg_y then
    { s with program_counter := (s.program_counter + 2) % 65536 }
  else s

/-- `6XNN`: `Vx = nn`. -/
def chip8_op_set (s : Chip8State) (reg value : Nat) : Chip8State :=
  { s with registers := upd s.registers reg (value % 256) }

/-- `7XNN`: `Vx += nn`, wrapping 8-bit. -/
def chip8_op_add (s : Chip8State) (reg value : Nat) : Chip8State :=
  { s with registers := upd s.registers reg ((s.registers reg + value) % 256) }

/-- `8XY0`: `Vx = Vy`. -/
def chip8_op_set_reg (s : Chip8State) (reg_x reg_y : Nat) : Chip8State :=
  { s with registers := upd s.registers reg_x (s.registers reg_y % 256) }

/-- `8XY1`: `Vx |= Vy`. -/
def chip8_op_or (s : Chip8State) (reg_x reg_y : Nat) : Chip8State :=
  { s with registers := upd s.registers reg_x ((s.registers reg_x ||| s.registers reg_y) % 256) }

/-- `8XY2`: `Vx &= Vy`. -/
def chip8_op_and (s : Chip8State) (reg_x reg_y : Nat) : Chip8State :=
  { s with registers := upd s.registers reg_x ((s.registers reg_x &&& s.registers reg_y) % 256) }

/-- `8XY3`: `Vx ^= Vy`. -/
def chip8_op_xor (s : Chip8State) (reg_x reg_y : Nat) : Chip8State :=
  { s with registers := upd s.registers reg_x ((s.registers reg_x ^^^ s.registers reg_y) % 256) }

/-- `8XY4`: `sum = Vx + Vy` into a `uint16_t`, `Vx += Vy` wrapping 8-bit,
then `VF = sum > 255 ? 1 : 0` — the flag is the last write. -/
def chip8_op_add_reg (s : Chip8State) (reg_x reg_y : Nat) : Chip8State :=
  let sum := (s.registers reg_x + s.registers reg_y) % 65536
  let r1 := upd s.registers reg_x ((s.registers reg_x + s.registers reg_y) % 256)
  { s with registers := upd r1 0xF (if 255 < sum then 1 else 0) }

/-- `8XY5`: `flag = Vx >= Vy`, `Vx -= Vy` wrapping 8-bit, `VF = flag` last. -/
def chip8_op_subtract_xy (s : Chip8State) (reg_x reg_y : Nat) : Chip8State :=
  let flag := if s.registers reg_y ≤ s.registers reg_x then 1 else 0
  let r1 := upd s.registers reg_x ((s.registers reg_x + 256 - s.registers reg_y % 256) % 256)
  { s with registers := upd r1 0xF flag }

/-- `8XY6`: `Vx = Vy`; `shifted_value = Vx & 1`; `Vx >>= 1`;
`VF = shifted_value & 1` — copy-from-Vy-first quirk, flag written last. -/
def chip8_op_shr (s : Chip8State) (reg_x reg_y : Nat) : Chip8State :=
  let r1 := upd s.registers reg_x (s.registers reg_y % 256)
  let shifted_value := r1 reg_x &&& 1
  let r2 := upd r1 reg_x (r1 reg_x >>> 1)
  { s with registers := upd r2 0xF ((shifted_value &&& 1) % 256) }

/-- `8XY7`: `flag = Vy >= Vx`, `Vx = Vy - Vx` wrapping 8-bit, `VF = flag` last. -/
def chip8_op_subtract_yx (s : Chip8State) (reg_x reg_y : Nat) : Chip8State :=
  let flag := if s.registers reg_x ≤ s.registers reg_y then 1 else 0
  let r1 := upd s.registers reg_x ((s.registers reg_y + 256 - s.registers reg_x % 256) % 256)
  { s with registers := upd r1 0xF flag }

/-- `8XYE`: `Vx = Vy`; `shifted_value = (Vx >> 7) & 1`; `Vx <<= 1` wrapping
8-bit; `VF = shifted_value & 1` — same copy-then-shift quirk. -/
def chip8_op_shl (s : Chip8State) (reg_x reg_y : Nat) : Chip8State :=
  let r1 := upd s.registers reg_x (s.registers reg_y % 256)
  let shifted_value := (r1 reg_x >>> 7) &&& 1
  let r2 := upd r1 reg_x ((r1 reg_x <<< 1) % 256)
  { s with registers := upd r2 0xF ((shifted_value &&& 1) % 256) }

/-- `9XY0`: skip if `Vx != Vy`. -/
def chip8_op_skip_reg_not_equal (s : Chip8State) (reg_x reg_y : Nat) : Chip8State :=
  if s.registers reg_x ≠ s.registers reg_y then
    { s with program_counter := (s.program_counter + 2) % 65536 }
  else s

/-- `ANNN`: `index_register = nnn`. -/
def chip8_op_set_index (s : Chip8State) (value : Nat) : Chip8State :=
  { s with index_register := value % 65536 }

/-- `BNNN`: `program_counter = V0 + nnn`. -/
def chip8_op_jmp_offset (s : Chip8State) (value : Nat) : Chip8State :=
  { s with program_counter := (s.registers 0x0 + value) % 65536 }

/-- `CXNN`: `Vx = rand() & nn`; the `rand()` result is the environment
input `randVal`. -/
def chip8_op_rand (s : Chip8State) (reg_x value randVal : Nat) : Chip8State :=
  { s with registers := upd s.registers reg_x ((randVal &&& value) % 256) }

/-! ### DXYN draw -/

/-- Sprite pixel extraction of the inner draw loop: `(sprite >> (7 - col)) & 0x1`. -/
def sprite_bit (sprite col : Nat) : Nat := (sprite >>> (7 - col)) &&& 0x1

/-- One inner-loop iteration of `chip8_op_draw` at column `col`: skip
out-of-frame pixels, otherwise test collision against the current cell and
XOR the cell with 1. -/
def draw_col_step (sprite x y row col : Nat) (vram : Nat → Nat) (vf : Nat) :
    (Nat → Nat) × Nat :=
  if 64 ≤ x + col ∨ 32 ≤ y + row then (vram, vf)
  else
    let sprite_pixel := sprite_bit sprite col
    let vram_index := (y + row) * 64 + (x + col)
    if sprite_pixel ≠ 0 then
      (upd vram vram_index (vram vram_index ^^^ 1),
       if vram vram_index = 1 then 1 else vf)
    else (vram, vf)

/-- The inner `for (col …)` loop of `chip8_op_draw`, running `fuel` more
iterations starting at column `col`. -/
def draw_cols (sprite x y row : Nat) : Nat → Nat → (Nat → Nat) → Nat → (Nat → Nat) × Nat
  | _, 0, vram, vf => (vram, vf)
  | col, fuel + 1, vram, vf =>
      let acc := draw_col_step sprite x y row col vram vf
      draw_cols sprite x y row (col + 1) fuel acc.1 acc.2

/-- The outer `for (row …)` loop of `chip8_op_draw`, running `fuel` more
iterations starting at row `row`; each row reads its sprite byte from
`memory[index_register + row]`. -/
def draw_rows (mem : Nat → Nat) (idx x y : Nat) : Nat → Nat → (Nat → Nat) → Nat → (Nat → Nat) × Nat
  | _, 0, vram, vf => (vram, vf)
  | row, fuel + 1, vram, vf =>
      let sprite := mem (idx + row)
      let acc := draw_cols sprite x y row 0 8 vram vf
      draw_rows mem idx x y (row + 1) fuel acc.1 acc.2

/-- `DXYN`: XOR-blit the `n`-row sprite at `(Vx % 64, Vy % 32)`; `VF` starts
at 0 and becomes 1 on collision (written into register 0xF). -/
def chip8_op_draw (s : Chip8State) (reg_x reg_y value : Nat) : Chip8State :=
  let x := s.registers reg_x % 64
  let y := s.registers reg_y % 32
  let r := draw_rows s.memory s.index_register x y 0 value s.vram 0
  { s with vram := r.1, registers := upd s.registers 0xF (r.2 % 256) }

/-- `EX9E`: skip if `keypad[Vx]` is truthy (nonzero). -/
def chip8_op_skip_key (s : Chip8State) (reg_x : Nat) : Chip8State :=
  if s.keypad (s.registers reg_x) ≠ 0 then
    { s with program_counter := (s.program_counter + 2) % 65536 }
  else s

/-- `EXA1`: skip if `keypad[Vx]` is falsy (zero). -/
def chip8_op_skip_not_key (s : Chip8State) (reg_x : Nat) : Chip8State :=
  if s.keypad (s.registers reg_x) = 0 then
    { s with program_counter := (s.program_counter + 2) % 65536 }
  else s

/-- `FX07`: `Vx = delay_timer`. -/
def chip8_op_get_delay_timer (s : Chip8State) (reg_x : Nat) : Chip8State :=
  { s with registers := upd s.registers reg_x (s.delay_timer % 256) }

/-- The `for (i = 0; i < 16; i++)` keypad scan of `chip8_op_halt_key`,
with `fuel` iterations remaining from index `i`: the first truthy keypad
entry wins. -/
def halt_key_scan (keypad : Nat → Nat) : Nat → Nat → Option Nat
  | _, 0 => none
  | i, fuel + 1 => if keypad i ≠ 0 then some i else halt_key_scan keypad (i + 1) fuel

/-- `FX0A`: scan the keypad; on a pressed key store its index into `Vx`,
otherwise rewind `program_counter` by 2 (uint16 wrap) to replay the
instruction next tick. -/
def chip8_op_halt_key (s : Chip8State) (reg_x : Nat) : Chip8State :=
  match halt_key_scan s.keypad 0 16 with
  | some i => { s with registers := upd s.registers reg_x (i % 256) }
  | none => { s with program_counter := (s.program_counter + 65534) % 65536 }

/-- `FX15`: `delay_timer = Vx`. -/
def chip8_op_set_delay_timer (s : Chip8State) (reg_x : Nat) : Chip8State :=
  { s with delay_timer := s.registers reg_x % 256 }

/-- `FX18`: `sound_timer = Vx`. -/
def chip8_op_set_sound_timer (s : Chip8State) (reg_x : Nat) : Chip8State :=
  { s with sound_timer := s.registers reg_x % 256 }

/-- `FX1E`: `index_register += Vx`, wrapping 16-bit, no masking to 0xFFF. -/
def chip8_op_add_index (s : Chip8State) (reg_x : Nat) : Chip8State :=
  { s with index_register := (s.index_register + s.registers reg_x) % 65536 }

/-- `FX33`: store the decimal digits of `Vx` at
`memory[index_register]`, `[+1]`, `[+2]` (no address masking). -/
def chip8_op_coded_conversion (s : Chip8State) (reg_x : Nat) : Chip8State :=
  let m1 := upd s.memory s.index_register ((s.registers reg_x / 100) % 10)
  let m2 := upd m1 (s.index_register + 1) ((s.registers reg_x / 10) % 10)
  let m3 := upd m2 (s.index_register + 2) (s.registers reg_x % 10)
  { s with memory := m3 }

/-- The `for (i = 0; i <= reg_x; i++)` store loop of `chip8_op_store_memory`. -/
def store_memory_loop (regs : Nat → Nat) (idx : Nat) : Nat → Nat → (Nat → Nat) → (Nat → Nat)
  | _, 0, mem => mem
  | i, fuel + 1, mem => store_memory_loop regs idx (i + 1) fuel (upd mem (idx + i) (regs i % 256))

/-- `FX55`: store `V0..Vx` into memory starting at `index_register`
(no address masking). -/
def chip8_op_store_memory (s : Chip8State) (reg_x : Nat) : Chip8State :=
  { s with memory := store_memory_loop s.registers s.index_register 0 (reg_x + 1) s.memory }

/-- The `for (i = 0; i <= reg_x; i++)` load loop of `chip8_op_load_memory`. -/
def load_memory_loop (mem : Nat → Nat) (idx : Nat) : Nat → Nat → (Nat → Nat) → (Nat → Nat)
  | _, 0, regs => regs
  | i, fuel + 1, regs => load_memory_loop mem idx (i + 1) fuel (upd regs i (mem (idx + i) % 256))

/-- `FX65`: load `V0..Vx` from memory starting at `index_register`
(no address masking). -/
def chip8_op_load_memory (s : Chip8State) (reg_x : Nat) : Chip8State :=
  { s with registers := load_memory_loop s.memory s.index_register 0 (reg_x + 1) s.registers }

/-! ## Dispatch, fetch and tick -/

/-- The inner `switch (value_nn)` of the `0x0` family. -/
def chip8_execute_family0 (s : Chip8State) (instruction : Nat) : Chip8State × List Chip8Event :=
  if chip8_decode_nn instruction = 0xE0 then (chip8_op_cls s, [])
  else if chip8_decode_nn instruction = 0xEE then chip8_op_pop s
  else (s, [])

/-- The inner `switch (value_n)` of the `0x8` family. -/
def chip8_execute_family8 (s : Chip8State) (instruction : Nat) : Chip8State × List Chip8Event :=
  if chip8_decode_n instruction = 0x0 then
    (chip8_op_set_reg s (chip8_decode_x instruction) (chip8_decode_y instruction), [])
  else if chip8_decode_n instruction = 0x1 then
    (chip8_op_or s (chip8_decode_x instruction) (chip8_decode_y instruction), [])
  else if chip8_decode_n instruction = 0x2 then
    (chip8_op_and s (chip8_decode_x instruction) (chip8_decode_y instruction), [])
  else if chip8_decode_n instruction = 0x3 then
    (chip8_op_xor s (chip8_decode_x instruction) (chip8_decode_y instruction), [])
  else if chip8_decode_n instruction = 0x4 then
    (chip8_op_add_reg s (chip8_decode_x instruction) (chip8_decode_y instruction), [])
  else if chip8_decode_n instruction = 0x5 then
    (chip8_op_subtract_xy s (chip8_decode_x instruction) (chip8_decode_y instruction), [])
  else if chip8_decode_n instruction = 0x6 then
    (chip8_op_shr s (chip8_decode_x instruction) (chip8_decode_y instruction), [])
  else if chip8_decode_n instruction = 0x7 then
    (chip8_op_subtract_yx s (chip8_decode_x instruction) (chip8_decode_y instruction), [])
  else if chip8_decode_n instruction = 0xE then
    (chip8_op_shl s (chip8_decode_x instruction) (chip8_decode_y instruction), [])
  else (s, [])

/-- The inner `switch (value_nn)` of the `0xE` family. -/
def chip8_execute_familyE (s : Chip8State) (instruction : Nat) : Chip8State × List Chip8Event :=
  if chip8_decode_nn instruction = 0x9E then
    (chip8_op_skip_key s (chip8_decode_x instruction), [])
  else if chip8_decode_nn instruction = 0xA1 then
    (chip8_op_skip_not_key s (chip8_decode_x instruction), [])
  else (s, [])

/-- The inner `switch (value_nn)` of the `0xF` family. -/
def chip8_execute_familyF (s : Chip8State) (instruction : Nat) : Chip8State × List Chip8Event :=
  if chip8_decode_nn instruction = 0x07 then
    (chip8_op_get_delay_timer s (chip8_decode_x instruction), [])
  else if chip8_decode_nn instruction = 0x0A then
    (chip8_op_halt_key s (chip8_decode_x instruction), [])
  else if chip8_decode_nn instruction = 0x15 then
    (chip8_op_set_delay_timer s (chip8_decode_x instruction), [])
  else if chip8_decode_nn instruction = 0x18 then
    (chip8_op_set_sound_timer s (chip8_decode_x instruction), [])
  else if chip8_decode_nn instruction = 0x1E then
    (chip8_op_add_index s (chip8_decode_x instruction), [])
  else if chip8_decode_nn instruction = 0x33 then
    (chip8_op_coded_conversion s (chip8_decode_x instruction), [])
  else if chip8_decode_nn instruction = 0x55 then
    (chip8_op_store_memory s (chip8_decode_x instruction), [])
  else if chip8_decode_nn instruction = 0x65 then
    (chip8_op_load_memory s (chip8_decode_x instruction), [])
  else (s, [])

/-- `chip8_execute`: the two-level switch on the leading nibble and the
`nn`/`n` sub-keys; unrecognized combinations are no-ops.  `randVal` is the
`rand()` environment input consumed by CXNN.  The source's local variables
(`first_nibble`, `reg_x`, …) are written inline as their defining decode
applications, and the four nested `switch` statements are the
`chip8_execute_family*` functions above. -/
def chip8_execute (s : Chip8State) (instruction randVal : Nat) : Chip8State × List Chip8Event :=
  if chip8_decode_op instruction = 0x0 then chip8_execute_family0 s instruction
  else if chip8_decode_op instruction = 0x1 then
    (chip8_op_jmp s (chip8_decode_nnn instruction), [])
  else if chip8_decode_op instruction = 0x2 then
    chip8_op_push s (chip8_decode_nnn instruction)
  else if chip8_decode_op instruction = 0x3 then
    (chip8_op_skip_equal s (chip8_decode_x instruction) (chip8_decode_nn instruction), [])
  else if chip8_decode_op instruction = 0x4 then
    (chip8_op_skip_not_equal s (chip8_decode_x instruction) (chip8_decode_nn instruction), [])
  else if chip8_decode_op instruction = 0x5 then
    (chip8_op_skip_reg_equal s (chip8_decode_x instruction) (chip8_decode_y instruction), [])
  else if chip8_decode_op instruction = 0x6 then
    (chip8_op_set s (chip8_decode_x instruction) (chip8_decode_nn instruction), [])
  else if chip8_decode_op instruction = 0x7 then
    (chip8_op_add s (chip8_decode_x instruction) (chip8_decode_nn instruction), [])
  else if chip8_decode_op instruction = 0x8 then chip8_execute_family8 s instruction
  else if chip8_decode_op instruction = 0x9 then
    (chip8_op_skip_reg_not_equal s (chip8_decode_x instruction) (chip8_decode_y instruction), [])
  else if chip8_decode_op instruction = 0xA then
    (chip8_op_set_index s (chip8_decode_nnn instruction), [])
  else if chip8_decode_op instruction = 0xB then
    (chip8_op_jmp_offset s (chip8_decode_nnn instruction), [])
  else if chip8_decode_op instruction = 0xC then
    (chip8_op_rand s (chip8_decode_x instruction) (chip8_decode_nn instruction) randVal, [])
  else if chip8_decode_op instruction = 0xD then
    (chip8_op_draw s (chip8_decode_x instruction) (chip8_decode_y instruction)
      (chip8_decode_n instruction), [])
  else if chip8_decode_op instruction = 0xE then chip8_execute_familyE s instruction
  else if chip8_decode_op instruction = 0xF then chip8_execute_familyF s instruction
  else (s, [])

/-- The instruction fetched by `chip8_tick`:
`(memory[pc] << 8) | memory[pc + 1]`, stored into a `uint16_t`. -/
def chip8_fetch (s : Chip8State) : Nat :=
  ((s.memory s.program_counter <<< 8) ||| s.memory (s.program_counter + 1)) % 65536

/-- The fetch-advance-execute phase of `chip8_tick`. -/
def chip8_tick_fetch_execute (s : Chip8State) (randVal : Nat) : Chip8State × List Chip8Event :=
  chip8_execute { s with program_counter := (s.program_counter + 2) % 65536 }
    (chip8_fetch s) randVal

/-- `chip8_tick`: fetch and execute one instruction, then add the measured
`elapsed_time` to the `last_timer_update` accumulator and, **if** it has
reached `TIMER_DECREMENT_INTERVAL`, decrement the two timers once (floored
at 0) and subtract one interval.  Returns the new state, the new
accumulator value, and the emitted events (the trailing `nanosleep` has no
machine-state content). -/
def chip8_tick (s : Chip8State) (last_timer_update elapsed_time : ℚ) (randVal : Nat) :
    Chip8State × ℚ × List Chip8Event :=
  let r := chip8_tick_fetch_execute s randVal
  let s1 := r.1
  let ltu := last_timer_update + elapsed_time
  if TIMER_DECREMENT_INTERVAL ≤ ltu then
    ({ s1 with
        delay_timer := if 0 < s1.delay_timer then s1.delay_timer - 1 else s1.delay_timer
        sound_timer := if 0 < s1.sound_timer then s1.sound_timer - 1 else s1.sound_timer },
     ltu - TIMER_DECREMENT_INTERVAL, r.2)
  else (s1, ltu, r.2)

/-! ## Memory indices accessed by the address-taking handlers

These record, straight from the source loops, which indices of the C
`memory[4096]` array each handler dereferences; an element `≥ 4096` is an
out-of-bounds access of the C program. -/

/-- Indices read by `DXYN`: `memory[index_register + row]` for each row. -/
def chip8_op_draw_mem_reads (s : Chip8State) (value : Nat) : List Nat :=
  (List.range value).map (fun row => s.index_register + row)

/-- Indices written by `FX33`. -/
def chip8_op_coded_conversion_mem_writes (s : Chip8State) : List Nat :=
  [s.index_register, s.index_register + 1, s.index_register + 2]

/-- Indices written by `FX55`. -/
def chip8_op_store_memory_mem_writes (s : Chip8State) (reg_x : Nat) : List Nat :=
  (List.range (reg_x + 1)).map (fun i => s.index_register + i)

/-- Indices read by `FX65`. -/
def chip8_op_load_memory_mem_reads (s : Chip8State) (reg_x : Nat) : List Nat :=
  (List.range (reg_x + 1)).map (fun i => s.index_register + i)
/-- A sprite pixel that is actually drawn: in-frame and set. -/
def draw_hit (sprite x y row col : Nat) : Prop :=
  x + col < 64 ∧ y + row < 32 ∧ sprite_bit sprite col = 1

instance (sprite x y row col : Nat) : Decidable (draw_hit sprite x y row col) := by
  unfold draw_hit; infer_instance

theorem draw_col_step_eq (sprite x y row col : Nat) (vram : Nat → Nat) (vf : Nat) :
    draw_col_step sprite x y row col vram vf =
      if draw_hit sprite x y row col then
        (upd vram ((y + row) * 64 + (x + col)) (vram ((y + row) * 64 + (x + col)) ^^^ 1),
         if vram ((y + row) * 64 + (x + col)) = 1 then 1 else vf)
      else (vram, vf) := by
  have hb : sprite_bit sprite col = (sprite >>> (7 - col)) % 2 := by
    simp [sprite_bit, Nat.and_one_is_mod]
  unfold draw_col_step
  by_cases h1 : 64 ≤ x + col ∨ 32 ≤ y + row
  · rw [if_pos h1, if_neg]
    rintro ⟨hx, hy, -⟩
    omega
  · rw [if_neg h1]
    by_cases h2 : sprite_bit sprite col ≠ 0
    · have hhit : draw_hit sprite x y row col := ⟨by omega, by omega, by omega⟩
      rw [if_pos h2, if_pos hhit]
    · rw [if_neg h2, if_neg]
      rintro ⟨-, -, hbit⟩
      omega

theorem draw_cols_spec (sprite x y row : Nat) :
    ∀ fuel col (vram : Nat → Nat) (vf : Nat),
      (∀ i, (draw_cols sprite x y row col fuel vram vf).1 i =
        if ∃ j < col + fuel, col ≤ j ∧ draw_hit sprite x y row j ∧ i = (y + row) * 64 + (x + j)
        then vram i ^^^ 1 else vram i)
      ∧ ((draw_cols sprite x y row col fuel vram vf).2 =
        if ∃ j < col + fuel, col ≤ j ∧ draw_hit sprite x y row j ∧ vram ((y + row) * 64 + (x + j)) = 1
        then 1 else vf) := by
  intro fuel
  induction fuel with
  | zero =>
    intro col vram vf
    constructor
    · intro i
      rw [if_neg]
      · rfl
      · rintro ⟨j, hj, hcj, -⟩; omega
    · rw [if_neg]
      · rfl
      · rintro ⟨j, hj, hcj, -⟩; omega
  | succ fuel ih =>
    intro col vram vf
    have hstep : draw_cols sprite x y row col (fuel + 1) vram vf =
        draw_cols sprite x y row (col + 1) fuel
          (draw_col_step sprite x y row col vram vf).1
          (draw_col_step sprite x y row col vram vf).2 := rfl
    rw [hstep, draw_col_step_eq]
    by_cases hhit : draw_hit sprite x y row col
    · rw [if_pos hhit]
      obtain ⟨ihv, ihf⟩ := ih (col + 1)
        (upd vram ((y + row) * 64 + (x + col)) (vram ((y + row) * 64 + (x + col)) ^^^ 1))
        (if vram ((y + row) * 64 + (x + col)) = 1 then 1 else vf)
      constructor
      · intro i
        rw [ihv i]
        by_cases hC : ∃ j < col + 1 + fuel, col + 1 ≤ j ∧ draw_hit sprite x y row j ∧
            i = (y + row) * 64 + (x + j)
        · rw [if_pos hC]
          obtain ⟨j, hj, hcj, hitj, hi⟩ := hC
          have hne : i ≠ (y + row) * 64 + (x + col) := by
            obtain ⟨hxj, -, -⟩ := hitj
            obtain ⟨hxc, -, -⟩ := hhit
            omega
          rw [upd_ne _ _ _ _ hne, if_pos ⟨j, by omega, by omega, hitj, hi⟩]
        · rw [if_neg hC]
          by_cases hi : i = (y + row) * 64 + (x + col)
          · rw [hi, upd_same, if_pos ⟨col, by omega, le_refl col, hhit, rfl⟩]
          · rw [upd_ne _ _ _ _ hi, if_neg]
            rintro ⟨j, hj, hcj, hitj, hij⟩
            rcases Nat.eq_or_lt_of_le hcj with rfl | hlt
            · exact hi hij
            · exact hC ⟨j, by omega, by omega, hitj, hij⟩
      · rw [ihf]
        have hEF : (∃ j < col + 1 + fuel, col + 1 ≤ j ∧ draw_hit sprite x y row j ∧
              (upd vram ((y + row) * 64 + (x + col)) (vram ((y + row) * 64 + (x + col)) ^^^ 1))
                ((y + row) * 64 + (x + j)) = 1)
            ↔ (∃ j < col + 1 + fuel, col + 1 ≤ j ∧ draw_hit sprite x y row j ∧
              vram ((y + row) * 64 + (x + j)) = 1) := by
          constructor
          · rintro ⟨j, hj, hcj, hitj, hv⟩
            have hne : (y + row) * 64 + (x + j) ≠ (y + row) * 64 + (x + col) := by
              obtain ⟨hxj, -, -⟩ := hitj
              obtain ⟨hxc, -, -⟩ := hhit
              omega
            rw [upd_ne _ _ _ _ hne] at hv
            exact ⟨j, hj, hcj, hitj, hv⟩
          · rintro ⟨j, hj, hcj, hitj, hv⟩
            have hne : (y + row) * 64 + (x + j) ≠ (y + row) * 64 + (x + col) := by
              obtain ⟨hxj, -, -⟩ := hitj
              obtain ⟨hxc, -, -⟩ := hhit
              omega
            exact ⟨j, hj, hcj, hitj, by rw [upd_ne _ _ _ _ hne]; exact hv⟩
        by_cases hF : ∃ j < col + 1 + fuel, col + 1 ≤ j ∧ draw_hit sprite x y row j ∧
            vram ((y + row) * 64 + (x + j)) = 1
        · rw [if_pos (hEF.mpr hF)]
          obtain ⟨j, hj, hcj, hitj, hv⟩ := hF
          rw [if_pos ⟨j, by omega, by omega, hitj, hv⟩]
        · rw [if_neg (fun h => hF (hEF.mp h))]
          by_cases hv : vram ((y + row) * 64 + (x + col)) = 1
          · rw [if_pos hv, if_pos ⟨col, by omega, le_refl col, hhit, hv⟩]
          · rw [if_neg hv, if_neg]
            rintro ⟨j, hj, hcj, hitj, hvj⟩
            rcases Nat.eq_or_lt_of_le hcj with rfl | hlt
            · exact hv hvj
            · exact hF ⟨j, by omega, by omega, hitj, hvj⟩
    · rw [if_neg hhit]
      obtain ⟨ihv, ihf⟩ := ih (col + 1) vram vf
      constructor
      · intro i
        rw [ihv i]
        congr 1
        apply propext
        constructor
        · rintro ⟨j, hj, hcj, hitj, hij⟩
          exact ⟨j, by omega, by omega, hitj, hij⟩
        · rintro ⟨j, hj, hcj, hitj, hij⟩
          rcases Nat.eq_or_lt_of_le hcj with rfl | hlt
          · exact absurd hitj hhit
          · exact ⟨j, by omega, by omega, hitj, hij⟩
      · rw [ihf]
        congr 1
        apply propext
        constructor
        · rintro ⟨j, hj, hcj, hitj, hvj⟩
          exact ⟨j, by omega, by omega, hitj, hvj⟩
        · rintro ⟨j, hj, hcj, hitj, hvj⟩
          rcases Nat.eq_or_lt_of_le hcj with rfl | hlt
          · exact absurd hitj hhit
          · exact ⟨j, by omega, by omega, hitj, hvj⟩

theorem draw_cols_row_spec (sprite x y row : Nat) (vram : Nat → Nat) (vf : Nat) :
    (∀ i, (draw_cols sprite x y row 0 8 vram vf).1 i =
      if ∃ j < (8 : Nat), draw_hit sprite x y row j ∧ i = (y + row) * 64 + (x + j)
      then vram i ^^^ 1 else vram i)
    ∧ ((draw_cols sprite x y row 0 8 vram vf).2 =
      if ∃ j < (8 : Nat), draw_hit sprite x y row j ∧ vram ((y + row) * 64 + (x + j)) = 1
      then 1 else vf) := by
  obtain ⟨hv, hf⟩ := draw_cols_spec sprite x y row 8 0 vram vf
  simp only [Nat.zero_add, Nat.zero_le, true_and] at hv hf
  exact ⟨hv, hf⟩

theorem draw_rows_spec (mem : Nat → Nat) (idx0 x y : Nat) :
    ∀ fuel row (vram : Nat → Nat) (vf : Nat),
      (∀ i, (draw_rows mem idx0 x y row fuel vram vf).1 i =
        if ∃ r < row + fuel, row ≤ r ∧ ∃ j < (8 : Nat),
            draw_hit (mem (idx0 + r)) x y r j ∧ i = (y + r) * 64 + (x + j)
        then vram i ^^^ 1 else vram i)
      ∧ ((draw_rows mem idx0 x y row fuel vram vf).2 =
        if ∃ r < row + fuel, row ≤ r ∧ ∃ j < (8 : Nat),
            draw_hit (mem (idx0 + r)) x y r j ∧ vram ((y + r) * 64 + (x + j)) = 1
        then 1 else vf) := by
  intro fuel
  induction fuel with
  | zero =>
    intro row vram vf
    constructor
    · intro i
      rw [if_neg]
      · rfl
      · rintro ⟨r, hr, hrr, -⟩; omega
    · rw [if_neg]
      · rfl
      · rintro ⟨r, hr, hrr, -⟩; omega
  | succ fuel ih =>
    intro row vram vf
    have hstep : draw_rows mem idx0 x y row (fuel + 1) vram vf =
        draw_rows mem idx0 x y (row + 1) fuel
          (draw_cols (mem (idx0 + row)) x y row 0 8 vram vf).1
          (draw_cols (mem (idx0 + row)) x y row 0 8 vram vf).2 := rfl
    rw [hstep]
    obtain ⟨hcv, hcf⟩ := draw_cols_row_spec (mem (idx0 + row)) x y row vram vf
    obtain ⟨ihv, ihf⟩ := ih (row + 1)
      (draw_cols (mem (idx0 + row)) x y row 0 8 vram vf).1
      (draw_cols (mem (idx0 + row)) x y row 0 8 vram vf).2
    constructor
    · intro i
      rw [ihv i, hcv i]
      by_cases hC : ∃ r < row + 1 + fuel, row + 1 ≤ r ∧ ∃ j < (8 : Nat),
          draw_hit (mem (idx0 + r)) x y r j ∧ i = (y + r) * 64 + (x + j)
      · -- i is covered by a later row; the current row does not touch it
        have hnotrow : ¬ ∃ j < (8 : Nat), draw_hit (mem (idx0 + row)) x y row j ∧
            i = (y + row) * 64 + (x + j) := by
          rintro ⟨j, hj, hitj, hij⟩
          obtain ⟨r, hr, hrr, j', hj', hitj', hij'⟩ := hC
          obtain ⟨hxj, hyj, -⟩ := hitj
          obtain ⟨hxj', hyj', -⟩ := hitj'
          omega
        rw [if_pos hC, if_neg hnotrow, if_pos]
        obtain ⟨r, hr, hrr, j', hj', hitj', hij'⟩ := hC
        exact ⟨r, by omega, by omega, j', hj', hitj', hij'⟩
      · rw [if_neg hC]
        by_cases hR : ∃ j < (8 : Nat), draw_hit (mem (idx0 + row)) x y row j ∧
            i = (y + row) * 64 + (x + j)
        · rw [if_pos hR, if_pos]
          obtain ⟨j, hj, hitj, hij⟩ := hR
          exact ⟨row, by omega, le_refl row, j, hj, hitj, hij⟩
        · rw [if_neg hR, if_neg]
          rintro ⟨r, hr, hrr, j, hj, hitj, hij⟩
          rcases Nat.eq_or_lt_of_le hrr with rfl | hlt
          · exact hR ⟨j, hj, hitj, hij⟩
          · exact hC ⟨r, by omega, by omega, j, hj, hitj, hij⟩
    · rw [ihf, hcf]
      have hEF : (∃ r < row + 1 + fuel, row + 1 ≤ r ∧ ∃ j < (8 : Nat),
            draw_hit (mem (idx0 + r)) x y r j ∧
            (draw_cols (mem (idx0 + row)) x y row 0 8 vram vf).1 ((y + r) * 64 + (x + j)) = 1)
          ↔ (∃ r < row + 1 + fuel, row + 1 ≤ r ∧ ∃ j < (8 : Nat),
            draw_hit (mem (idx0 + r)) x y r j ∧ vram ((y + r) * 64 + (x + j)) = 1) := by
        have hsame : ∀ r j, row + 1 ≤ r → draw_hit (mem (idx0 + r)) x y r j →
            (draw_cols (mem (idx0 + row)) x y row 0 8 vram vf).1 ((y + r) * 64 + (x + j)) =
              vram ((y + r) * 64 + (x + j)) := by
          intro r j hrr hitj
          rw [hcv]
          rw [if_neg]
          rintro ⟨j', hj', hitj', hij'⟩
          obtain ⟨hxj, hyj, -⟩ := hitj
          obtain ⟨hxj', hyj', -⟩ := hitj'
          omega
        constructor
        · rintro ⟨r, hr, hrr, j, hj, hitj, hv⟩
          rw [hsame r j hrr hitj] at hv
          exact ⟨r, hr, hrr, j, hj, hitj, hv⟩
        · rintro ⟨r, hr, hrr, j, hj, hitj, hv⟩
          exact ⟨r, hr, hrr, j, hj, hitj, by rw [hsame r j hrr hitj]; exact hv⟩
      by_cases hF : ∃ r < row + 1 + fuel, row + 1 ≤ r ∧ ∃ j < (8 : Nat),
          draw_hit (mem (idx0 + r)) x y r j ∧ vram ((y + r) * 64 + (x + j)) = 1
      · rw [if_pos (hEF.mpr hF), if_pos]
        obtain ⟨r, hr, hrr, j, hj, hitj, hv⟩ := hF
        exact ⟨r, by omega, by omega, j, hj, hitj, hv⟩
      · rw [if_neg (fun h => hF (hEF.mp h))]
        by_cases hR : ∃ j < (8 : Nat), draw_hit (mem (idx0 + row)) x y row j ∧
            vram ((y + row) * 64 + (x + j)) = 1
        · rw [if_pos hR, if_pos]
          obtain ⟨j, hj, hitj, hv⟩ := hR
          exact ⟨row, by omega, le_refl row, j, hj, hitj, hv⟩
        · rw [if_neg hR, if_neg]
          rintro ⟨r, hr, hrr, j, hj, hitj, hv⟩
          rcases Nat.eq_or_lt_of_le hrr with rfl | hlt
          · exact hR ⟨j, hj, hitj, hv⟩
          · exact hF ⟨r, by omega, by omega, j, hj, hitj, hv⟩

/-- Cell `i` receives the XOR of a drawn sprite pixel of `DXYN` executed in
state `s`: some in-frame set pixel `(r, j)` of the sprite lands on `i`. -/
def chip8_draw_cover (s : Chip8State) (reg_x reg_y value i : Nat) : Prop :=
  ∃ r < value, ∃ j < (8 : Nat),
    draw_hit (s.memory (s.index_register + r)) (s.registers reg_x % 64)
      (s.registers reg_y % 32) r j ∧
    i = (s.registers reg_y % 32 + r) * 64 + (s.registers reg_x % 64 + j)

/-- Some drawn sprite pixel of `DXYN` executed in state `s` lands on a
framebuffer cell that already holds 1. -/
def chip8_draw_collision (s : Chip8State) (reg_x reg_y value : Nat) : Prop :=
  ∃ r < value, ∃ j < (8 : Nat),
    draw_hit (s.memory (s.index_register + r)) (s.registers reg_x % 64)
      (s.registers reg_y % 32) r j ∧
    s.vram ((s.registers reg_y % 32 + r) * 64 + (s.registers reg_x % 64 + j)) = 1

instance (s : Chip8State) (reg_x reg_y value i : Nat) :
    Decidable (chip8_draw_cover s reg_x reg_y value i) := by
  unfold chip8_draw_cover; infer_instance

instance (s : Chip8State) (reg_x reg_y value : Nat) :
    Decidable (chip8_draw_collision s reg_x reg_y value) := by
  unfold chip8_draw_collision; infer_instance

theorem chip8_op_draw_spec (s : Chip8State) (reg_x reg_y value : Nat) :
    (∀ i, (chip8_op_draw s reg_x reg_y value).vram i =
      if chip8_draw_cover s reg_x reg_y value i then s.vram i ^^^ 1 else s.vram i)
    ∧ ((chip8_op_draw s reg_x reg_y value).registers 0xF =
      if chip8_draw_collision s reg_x reg_y value then 1 else 0)
    ∧ (∀ k, k ≠ 0xF → (chip8_op_draw s reg_x reg_y value).registers k = s.registers k)
    ∧ (chip8_op_draw s reg_x reg_y value).memory = s.memory
    ∧ (chip8_op_draw s reg_x reg_y value).index_register = s.index_register
    ∧ (chip8_op_draw s reg_x reg_y value).program_counter = s.program_counter := by
  obtain ⟨hv, hf⟩ := draw_rows_spec s.memory s.index_register
    (s.registers reg_x % 64) (s.registers reg_y % 32) value 0 s.vram 0
  refine ⟨?_, ?_, ?_, rfl, rfl, rfl⟩
  · intro i
    show (draw_rows s.memory s.index_register (s.registers reg_x % 64)
        (s.registers reg_y % 32) 0 value s.vram 0).1 i = _
    rw [hv i]
    by_cases hc : chip8_draw_cover s reg_x reg_y value i
    · rw [if_pos hc]
      obtain ⟨r, hr, j, hj, hitj, hij⟩ := hc
      rw [if_pos ⟨r, by omega, by omega, j, hj, hitj, hij⟩]
    · rw [if_neg hc, if_neg]
      rintro ⟨r, hr, -, j, hj, hitj, hij⟩
      exact hc ⟨r, by omega, j, hj, hitj, hij⟩
  · show upd s.registers 0xF ((draw_rows s.memory s.index_register (s.registers reg_x % 64)
        (s.registers reg_y % 32) 0 value s.vram 0).2 % 256) 0xF = _
    rw [upd_same, hf]
    by_cases hc : chip8_draw_collision s reg_x reg_y value
    · rw [if_pos hc]
      obtain ⟨r, hr, j, hj, hitj, hvj⟩ := hc
      rw [if_pos ⟨r, by omega, by omega, j, hj, hitj, hvj⟩]
    · rw [if_neg hc, if_neg]
      · rintro ⟨r, hr, -, j, hj, hitj, hvj⟩
        exact hc ⟨r, by omega, j, hj, hitj, hvj⟩
  · intro k hk
    show upd s.registers 0xF _ k = s.registers k
    rw [upd_ne _ _ _ _ hk]

theorem halt_key_scan_none (keypad : Nat → Nat) :
    ∀ fuel i, (∀ j, i ≤ j → j < i + fuel → keypad j = 0) →
      halt_key_scan keypad i fuel = none := by
  intro fuel
  induction fuel with
  | zero => intro i _; rfl
  | succ fuel ih =>
    intro i h
    unfold halt_key_scan
    rw [if_neg (fun hn => hn (h i (le_refl i) (by omega)))]
    exact ih (i + 1) (fun j h1 h2 => h j (by omega) (by omega))

theorem halt_key_scan_least (keypad : Nat → Nat) :
    ∀ fuel i k, i ≤ k → k < i + fuel → keypad k ≠ 0 →
      (∀ j, i ≤ j → j < k → keypad j = 0) →
      halt_key_scan keypad i fuel = some k := by
  intro fuel
  induction fuel with
  | zero => intro i k h1 h2 _ _; omega
  | succ fuel ih =>
    intro i k h1 h2 hk hmin
    unfold halt_key_scan
    rcases Nat.eq_or_lt_of_le h1 with rfl | hlt
    · rw [if_pos hk]
    · rw [if_neg (fun hn => hn (hmin i (le_refl i) hlt))]
      exact ih (i + 1) k (by omega) (by omega) hk (fun j hj1 hj2 => hmin j (by omega) hj2)

theorem chip8_op_halt_key_no_key (s : Chip8State) (reg_x : Nat)
    (h : ∀ i, i < 16 → s.keypad i = 0) :
    chip8_op_halt_key s reg_x =
      { s with program_counter := (s.program_counter + 65534) % 65536 } := by
  unfold chip8_op_halt_key
  rw [halt_key_scan_none s.keypad 16 0 (fun j _ h2 => h j (by omega))]

theorem chip8_op_halt_key_pressed (s : Chip8State) (reg_x k : Nat)
    (hk : k < 16) (hp : s.keypad k ≠ 0) (hmin : ∀ j, j < k → s.keypad j = 0) :
    chip8_op_halt_key s reg_x =
      { s with registers := upd s.registers reg_x (k % 256) } := by
  unfold chip8_op_halt_key
  rw [halt_key_scan_least s.keypad 16 0 k (Nat.zero_le k) (by omega) hp
    (fun j _ hj2 => hmin j hj2)]

theorem chip8_op_pop_vram (s : Chip8State) : (chip8_op_pop s).1.vram = s.vram := by
  unfold chip8_op_pop; split_ifs <;> rfl

theorem chip8_op_push_vram (s : Chip8State) (a : Nat) :
    (chip8_op_push s a).1.vram = s.vram := by
  unfold chip8_op_push; split_ifs <;> rfl

theorem chip8_op_skip_equal_vram (s : Chip8State) (a b : Nat) :
    (chip8_op_skip_equal s a b).vram = s.vram := by
  unfold chip8_op_skip_equal; split_ifs <;> rfl

theorem chip8_op_skip_not_equal_vram (s : Chip8State) (a b : Nat) :
    (chip8_op_skip_not_equal s a b).vram = s.vram := by
  unfold chip8_op_skip_not_equal; split_ifs <;> rfl

theorem chip8_op_skip_reg_equal_vram (s : Chip8State) (a b : Nat) :
    (chip8_op_skip_reg_equal s a b).vram = s.vram := by
  unfold chip8_op_skip_reg_equal; split_ifs <;> rfl

theorem chip8_op_skip_reg_not_equal_vram (s : Chip8State) (a b : Nat) :
    (chip8_op_skip_reg_not_equal s a b).vram = s.vram := by
  unfold chip8_op_skip_reg_not_equal; split_ifs <;> rfl

theorem chip8_op_skip_key_vram (s : Chip8State) (a : Nat) :
    (chip8_op_skip_key s a).vram = s.vram := by
  unfold chip8_op_skip_key; split_ifs <;> rfl

theorem chip8_op_skip_not_key_vram (s : Chip8State) (a : Nat) :
    (chip8_op_skip_not_key s a).vram = s.vram := by
  unfold chip8_op_skip_not_key; split_ifs <;> rfl

theorem chip8_op_halt_key_vram (s : Chip8State) (a : Nat) :
    (chip8_op_halt_key s a).vram = s.vram := by
  unfold chip8_op_halt_key
  cases halt_key_scan s.keypad 0 16 <;> rfl

theorem chip8_execute_family0_vram_cases (s : Chip8State) (instruction i : Nat) :
    (chip8_execute_family0 s instruction).1.vram i = s.vram i
    ∨ (chip8_execute_family0 s instruction).1.vram i = 0 := by
  unfold chip8_execute_family0
  split_ifs with h1 h2
  · unfold chip8_op_cls
    by_cases hi : i < 64 * 32
    · right; simp [hi]
    · left; simp [hi]
  · left; exact congrFun (chip8_op_pop_vram s) i
  · left; rfl

theorem chip8_execute_family0_vram_no_cls (s : Chip8State) (instruction : Nat)
    (h : chip8_decode_nn instruction ≠ 0xE0) :
    (chip8_execute_family0 s instruction).1.vram = s.vram := by
  unfold chip8_execute_family0
  rw [if_neg h]
  split_ifs
  · exact chip8_op_pop_vram s
  · rfl

theorem chip8_execute_family8_vram (s : Chip8State) (instruction : Nat) :
    (chip8_execute_family8 s instruction).1.vram = s.vram := by
  unfold chip8_execute_family8
  split_ifs <;> rfl

theorem chip8_execute_familyE_vram (s : Chip8State) (instruction : Nat) :
    (chip8_execute_familyE s instruction).1.vram = s.vram := by
  unfold chip8_execute_familyE
  split_ifs
  · exact chip8_op_skip_key_vram s _
  · exact chip8_op_skip_not_key_vram s _
  · rfl

theorem chip8_execute_familyF_vram (s : Chip8State) (instruction : Nat) :
    (chip8_execute_familyF s instruction).1.vram = s.vram := by
  unfold chip8_execute_familyF
  split_ifs <;> first | rfl | exact chip8_op_halt_key_vram s _

/-! ### Dispatch lemmas: `chip8_execute` under a known leading nibble -/

theorem chip8_execute_eq_0 (s : Chip8State) (instruction randVal : Nat)
    (h : chip8_decode_op instruction = 0x0) :
    chip8_execute s instruction randVal = chip8_execute_family0 s instruction := by
  unfold chip8_execute; rw [h]; norm_num

theorem chip8_execute_eq_1 (s : Chip8State) (instruction randVal : Nat)
    (h : chip8_decode_op instruction = 0x1) :
    chip8_execute s instruction randVal = (chip8_op_jmp s (chip8_decode_nnn instruction), []) := by
  unfold chip8_execute; rw [h]; norm_num

theorem chip8_execute_eq_2 (s : Chip8State) (instruction randVal : Nat)
    (h : chip8_decode_op instruction = 0x2) :
    chip8_execute s instruction randVal = chip8_op_push s (chip8_decode_nnn instruction) := by
  unfold chip8_execute; rw [h]; norm_num

theorem chip8_execute_eq_3 (s : Chip8State) (instruction randVal : Nat)
    (h : chip8_decode_op instruction = 0x3) :
    chip8_execute s instruction randVal =
      (chip8_op_skip_equal s (chip8_decode_x instruction) (chip8_decode_nn instruction), []) := by
  unfold chip8_execute; rw [h]; norm_num

theorem chip8_execute_eq_4 (s : Chip8State) (instruction randVal : Nat)
    (h : chip8_decode_op instruction = 0x4) :
    chip8_execute s instruction randVal =
      (chip8_op_skip_not_equal s (chip8_decode_x instruction) (chip8_decode_nn instruction), []) := by
  unfold chip8_execute; rw [h]; norm_num

theorem chip8_execute_eq_5 (s : Chip8State) (instruction randVal : Nat)
    (h : chip8_decode_op instruction = 0x5) :
    chip8_execute s instruction randVal =
      (chip8_op_skip_reg_equal s (chip8_decode_x instruction) (chip8_decode_y instruction), []) := by
  unfold chip8_execute; rw [h]; norm_num

theorem chip8_execute_eq_6 (s : Chip8State) (instruction randVal : Nat)
    (h : chip8_decode_op instruction = 0x6) :
    chip8_execute s instruction randVal =
      (chip8_op_set s (chip8_decode_x instruction) (chip8_decode_nn instruction), []) := by
  unfold chip8_execute; rw [h]; norm_num

theorem chip8_execute_eq_7 (s : Chip8State) (instruction randVal : Nat)
    (h : chip8_decode_op instruction = 0x7) :
    chip8_execute s instruction randVal =
      (chip8_op_add s (chip8_decode_x instruction) (chip8_decode_nn instruction), []) := by
  unfold chip8_execute; rw [h]; norm_num

theorem chip8_execute_eq_8 (s : Chip8State) (instruction randVal : Nat)
    (h : chip8_decode_op instruction = 0x8) :
    chip8_execute s instruction randVal = chip8_execute_family8 s instruction := by
  unfold chip8_execute; rw [h]; norm_num

theorem chip8_execute_eq_9 (s : Chip8State) (instruction randVal : Nat)
    (h : chip8_decode_op instruction = 0x9) :
    chip8_execute s instruction randVal =
      (chip8_op_skip_reg_not_equal s (chip8_decode_x instruction) (chip8_decode_y instruction), []) := by
  unfold chip8_execute; rw [h]; norm_num

theorem chip8_execute_eq_A (s : Chip8State) (instruction randVal : Nat)
    (h : chip8_decode_op instruction = 0xA) :
    chip8_execute s instruction randVal =
      (chip8_op_set_index s (chip8_decode_nnn instruction), []) := by
  unfold chip8_execute; rw [h]; norm_num

theorem chip8_execute_eq_B (s : Chip8State) (instruction randVal : Nat)
    (h : chip8_decode_op instruction = 0xB) :
    chip8_execute s instruction randVal =
      (chip8_op_jmp_offset s (chip8_decode_nnn instruction), []) := by
  unfold chip8_execute; rw [h]; norm_num

theorem chip8_execute_eq_C (s : Chip8State) (instruction randVal : Nat)
    (h : chip8_decode_op instruction = 0xC) :
    chip8_execute s instruction randVal =
      (chip8_op_rand s (chip8_decode_x instruction) (chip8_decode_nn instruction) randVal, []) := by
  unfold chip8_execute; rw [h]; norm_num

theorem chip8_execute_eq_D (s : Chip8State) (instruction randVal : Nat)
    (h : chip8_decode_op instruction = 0xD) :
    chip8_execute s instruction randVal =
      (chip8_op_draw s (chip8_decode_x instruction) (chip8_decode_y instruction)
        (chip8_decode_n instruction), []) := by
  unfold chip8_execute; rw [h]; norm_num

theorem chip8_execute_eq_E (s : Chip8State) (instruction randVal : Nat)
    (h : chip8_decode_op instruction = 0xE) :
    chip8_execute s instruction randVal = chip8_execute_familyE s instruction := by
  unfold chip8_execute; rw [h]; norm_num

theorem chip8_execute_eq_F (s : Chip8State) (instruction randVal : Nat)
    (h : chip8_decode_op instruction = 0xF) :
    chip8_execute s instruction randVal = chip8_execute_familyF s instruction := by
  unfold chip8_execute; rw [h]; norm_num

theorem chip8_execute_eq_unknown (s : Chip8State) (instruction randVal : Nat)
    (h0 : chip8_decode_op instruction ≠ 0x0) (h1 : chip8_decode_op instruction ≠ 0x1)
    (h2 : chip8_decode_op instruction ≠ 0x2) (h3 : chip8_decode_op instruction ≠ 0x3)
    (h4 : chip8_decode_op instruction ≠ 0x4) (h5 : chip8_decode_op instruction ≠ 0x5)
    (h6 : chip8_decode_op instruction ≠ 0x6) (h7 : chip8_decode_op instruction ≠ 0x7)
    (h8 : chip8_decode_op instruction ≠ 0x8) (h9 : chip8_decode_op instruction ≠ 0x9)
    (hA : chip8_decode_op instruction ≠ 0xA) (hB : chip8_decode_op instruction ≠ 0xB)
    (hC : chip8_decode_op instruction ≠ 0xC) (hD : chip8_decode_op instruction ≠ 0xD)
    (hE : chip8_decode_op instruction ≠ 0xE) (hF : chip8_decode_op instruction ≠ 0xF) :
    chip8_execute s instruction randVal = (s, []) := by
  unfold chip8_execute
  rw [if_neg h0, if_neg h1, if_neg h2, if_neg h3, if_neg h4, if_neg h5, if_neg h6,
    if_neg h7, if_neg h8, if_neg h9, if_neg hA, if_neg hB, if_neg hC, if_neg hD,
    if_neg hE, if_neg hF]

theorem chip8_execute_familyF_eq_0A (s : Chip8State) (instruction : Nat)
    (h : chip8_decode_nn instruction = 0x0A) :
    chip8_execute_familyF s instruction =
      (chip8_op_halt_key s (chip8_decode_x instruction), []) := by
  unfold chip8_execute_familyF; rw [h]; norm_num

/-- Every instruction leaves each framebuffer cell unchanged, zeroes it
(CLS), or XORs it with 1 (DRW). -/
theorem chip8_execute_vram_cases (s : Chip8State) (instruction randVal i : Nat) :
    (chip8_execute s instruction randVal).1.vram i = s.vram i
    ∨ (chip8_execute s instruction randVal).1.vram i = 0
    ∨ (chip8_execute s instruction randVal).1.vram i = s.vram i ^^^ 1 := by
  by_cases h0 : chip8_decode_op instruction = 0x0
  · rw [chip8_execute_eq_0 s instruction randVal h0]
    rcases chip8_execute_family0_vram_cases s instruction i with h | h
    · left; exact h
    · right; left; exact h
  by_cases h1 : chip8_decode_op instruction = 0x1
  · rw [chip8_execute_eq_1 s instruction randVal h1]; left; rfl
  by_cases h2 : chip8_decode_op instruction = 0x2
  · rw [chip8_execute_eq_2 s instruction randVal h2]
    left; exact congrFun (chip8_op_push_vram s _) i
  by_cases h3 : chip8_decode_op instruction = 0x3
  · rw [chip8_execute_eq_3 s instruction randVal h3]
    left; exact congrFun (chip8_op_skip_equal_vram s _ _) i
  by_cases h4 : chip8_decode_op instruction = 0x4
  · rw [chip8_execute_eq_4 s instruction randVal h4]
    left; exact congrFun (chip8_op_skip_not_equal_vram s _ _) i
  by_cases h5 : chip8_decode_op instruction = 0x5
  · rw [chip8_execute_eq_5 s instruction randVal h5]
    left; exact congrFun (chip8_op_skip_reg_equal_vram s _ _) i
  by_cases h6 : chip8_decode_op instruction = 0x6
  · rw [chip8_execute_eq_6 s instruction randVal h6]; left; rfl
  by_cases h7 : chip8_decode_op instruction = 0x7
  · rw [chip8_execute_eq_7 s instruction randVal h7]; left; rfl
  by_cases h8 : chip8_decode_op instruction = 0x8
  · rw [chip8_execute_eq_8 s instruction randVal h8]
    left; exact congrFun (chip8_execute_family8_vram s instruction) i
  by_cases h9 : chip8_decode_op instruction = 0x9
  · rw [chip8_execute_eq_9 s instruction randVal h9]
    left; exact congrFun (chip8_op_skip_reg_not_equal_vram s _ _) i
  by_cases hA : chip8_decode_op instruction = 0xA
  · rw [chip8_execute_eq_A s instruction randVal hA]; left; rfl
  by_cases hB : chip8_decode_op instruction = 0xB
  · rw [chip8_execute_eq_B s instruction randVal hB]; left; rfl
  by_cases hC : chip8_decode_op instruction = 0xC
  · rw [chip8_execute_eq_C s instruction randVal hC]; left; rfl
  by_cases hD : chip8_decode_op instruction = 0xD
  · rw [chip8_execute_eq_D s instruction randVal hD]
    obtain ⟨hv, -⟩ := chip8_op_draw_spec s (chip8_decode_x instruction)
      (chip8_decode_y instruction) (chip8_decode_n instruction)
    have hcell := hv i
    by_cases hc : chip8_draw_cover s (chip8_decode_x instruction)
        (chip8_decode_y instruction) (chip8_decode_n instruction) i
    · right; right
      rw [if_pos hc] at hcell
      exact hcell
    · left
      rw [if_neg hc] at hcell
      exact hcell
  by_cases hE : chip8_decode_op instruction = 0xE
  · rw [chip8_execute_eq_E s instruction randVal hE]
    left; exact congrFun (chip8_execute_familyE_vram s instruction) i
  by_cases hF : chip8_decode_op instruction = 0xF
  · rw [chip8_execute_eq_F s instruction randVal hF]
    left; exact congrFun (chip8_execute_familyF_vram s instruction) i
  rw [chip8_execute_eq_unknown s instruction randVal h0 h1 h2 h3 h4 h5 h6 h7 h8 h9
    hA hB hC hD hE hF]
  left; rfl

/-- Instructions other than CLS and DRW leave the framebuffer untouched. -/
theorem chip8_execute_vram_unchanged (s : Chip8State) (instruction randVal : Nat)
    (hcls : ¬(chip8_decode_op instruction = 0x0 ∧ chip8_decode_nn instruction = 0xE0))
    (hdrw : chip8_decode_op instruction ≠ 0xD) :
    (chip8_execute s instruction randVal).1.vram = s.vram := by
  by_cases h0 : chip8_decode_op instruction = 0x0
  · rw [chip8_execute_eq_0 s instruction randVal h0]
    exact chip8_execute_family0_vram_no_cls s instruction (fun he => hcls ⟨h0, he⟩)
  by_cases h1 : chip8_decode_op instruction = 0x1
  · rw [chip8_execute_eq_1 s instruction randVal h1]; rfl
  by_cases h2 : chip8_decode_op instruction = 0x2
  · rw [chip8_execute_eq_2 s instruction randVal h2]
    exact chip8_op_push_vram s _
  by_cases h3 : chip8_decode_op instruction = 0x3
  · rw [chip8_execute_eq_3 s instruction randVal h3]
    exact chip8_op_skip_equal_vram s _ _
  by_cases h4 : chip8_decode_op instruction = 0x4
  · rw [chip8_execute_eq_4 s instruction randVal h4]
    exact chip8_op_skip_not_equal_vram s _ _
  by_cases h5 : chip8_decode_op instruction = 0x5
  · rw [chip8_execute_eq_5 s instruction randVal h5]
    exact chip8_op_skip_reg_equal_vram s _ _
  by_cases h6 : chip8_decode_op instruction = 0x6
  · rw [chip8_execute_eq_6 s instruction randVal h6]; rfl
  by_cases h7 : chip8_decode_op instruction = 0x7
  · rw [chip8_execute_eq_7 s instruction randVal h7]; rfl
  by_cases h8 : chip8_decode_op instruction = 0x8
  · rw [chip8_execute_eq_8 s instruction randVal h8]
    exact chip8_execute_family8_vram s instruction
  by_cases h9 : chip8_decode_op instruction = 0x9
  · rw [chip8_execute_eq_9 s instruction randVal h9]
    exact chip8_op_skip_reg_not_equal_vram s _ _
  by_cases hA : chip8_decode_op instruction = 0xA
  · rw [chip8_execute_eq_A s instruction randVal hA]; rfl
  by_cases hB : chip8_decode_op instruction = 0xB
  · rw [chip8_execute_eq_B s instruction randVal hB]; rfl
  by_cases hC : chip8_decode_op instruction = 0xC
  · rw [chip8_execute_eq_C s instruction randVal hC]; rfl
  by_cases hE : chip8_decode_op instruction = 0xE
  · rw [chip8_execute_eq_E s instruction randVal hE]
    exact chip8_execute_familyE_vram s instruction
  by_cases hF : chip8_decode_op instruction = 0xF
  · rw [chip8_execute_eq_F s instruction randVal hF]
    exact chip8_execute_familyF_vram s instruction
  rw [chip8_execute_eq_unknown s instruction randVal h0 h1 h2 h3 h4 h5 h6 h7 h8 h9
    hA hB hC hdrw hE hF]

/-! ### Tick decomposition -/

theorem chip8_tick_eq (s : Chip8State) (ltu e : ℚ) (r : Nat) :
    chip8_tick s ltu e r =
      if TIMER_DECREMENT_INTERVAL ≤ ltu + e then
        ({ (chip8_tick_fetch_execute s r).1 with
            delay_timer := if 0 < (chip8_tick_fetch_execute s r).1.delay_timer then
                (chip8_tick_fetch_execute s r).1.delay_timer - 1
              else (chip8_tick_fetch_execute s r).1.delay_timer
            sound_timer := if 0 < (chip8_tick_fetch_execute s r).1.sound_timer then
                (chip8_tick_fetch_execute s r).1.sound_timer - 1
              else (chip8_tick_fetch_execute s r).1.sound_timer },
         ltu + e - TIMER_DECREMENT_INTERVAL, (chip8_tick_fetch_execute s r).2)
      else ((chip8_tick_fetch_execute s r).1, ltu + e, (chip8_tick_fetch_execute s r).2) := rfl

theorem chip8_tick_program_counter (s : Chip8State) (ltu e : ℚ) (r : Nat) :
    (chip8_tick s ltu e r).1.program_counter =
      (chip8_tick_fetch_execute s r).1.program_counter := by
  rw [chip8_tick_eq]; split_ifs <;> rfl

theorem chip8_tick_registers (s : Chip8State) (ltu e : ℚ) (r : Nat) :
    (chip8_tick s ltu e r).1.registers = (chip8_tick_fetch_execute s r).1.registers := by
  rw [chip8_tick_eq]; split_ifs <;> rfl

theorem chip8_tick_index_register (s : Chip8State) (ltu e : ℚ) (r : Nat) :
    (chip8_tick s ltu e r).1.index_register =
      (chip8_tick_fetch_execute s r).1.index_register := by
  rw [chip8_tick_eq]; split_ifs <;> rfl

/-! ### Stack handler normal paths -/

theorem chip8_op_push_ok (s : Chip8State) (address : Nat) (h : s.stack_ptr < 32) :
    chip8_op_push s address =
      ({ s with stack := upd s.stack s.stack_ptr (s.program_counter % 65536)
                stack_ptr := (s.stack_ptr + 1) % 256
                program_counter := address % 65536 }, []) := by
  unfold chip8_op_push
  rw [if_neg (by omega)]

theorem chip8_op_pop_ok (s : Chip8State) (h : s.stack_ptr ≠ 0) :
    chip8_op_pop s =
      ({ s with stack_ptr := (s.stack_ptr + 255) % 256
                program_counter := s.stack ((s.stack_ptr + 255) % 256) % 65536 }, []) := by
  unfold chip8_op_pop
  rw [if_neg h]

/-! ### Concrete states used by witnesses and counterexamples -/

/-- An all-zero machine state. -/
def zeroState : Chip8State :=
  { memory := fun _ => 0, program_counter := 0, index_register := 0,
    stack := fun _ => 0, stack_ptr := 0, delay_timer := 0, sound_timer := 0,
    registers := fun _ => 0, vram := fun _ => 0, keypad := fun _ => 0 }

/-- A state whose 16-entry stack is full (`stack_ptr = 16`). -/
def c1State : Chip8State := { zeroState with program_counter := 0x202, stack_ptr := 16 }

/-- V0 = 250, V1 = 10 (the ADD carry test case of the spec). -/
def c4State : Chip8State :=
  { zeroState with registers := upd (upd (fun _ => 0) 0 250) 1 10 }

/-- V1 = 129 (bit 0 and bit 7 both set), for the shift quirk witness. -/
def c6State : Chip8State :=
  { zeroState with registers := upd (fun _ => 0) 1 129 }

/-! ## Claims -/

/-- C1: the claim says CALL at `stack_ptr = 16` leaves `program_counter`,
the stack and `stack_ptr` unchanged and emits an overflow event.  The code
guards with `stack_ptr >= sizeof(state->stack)`, and `sizeof` of the
`uint16_t stack[16]` array is 32 bytes, so at `stack_ptr = 16` the guard
does not trip: the push writes the out-of-range stack slot 16, increments
the pointer to 17, jumps to `nnn`, and emits no event. -/
theorem c1_call_at_sp16_pushes_and_jumps :
    c1State.stack_ptr = 16
    ∧ (chip8_op_push c1State 0x300).1.program_counter = 0x300
    ∧ (chip8_op_push c1State 0x300).1.stack_ptr = 17
    ∧ (chip8_op_push c1State 0x300).1.stack 16 = 0x202
    ∧ (chip8_op_push c1State 0x300).2 = []
    ∧ c1State.program_counter ≠ 0x300 := by
  decide

/-- C4: ADD Vx,Vy (8XY4) stores the 8-bit wrapping sum in Vx and then, as
its last write, sets VF to 1 iff the unsigned sum exceeds 255 — so even
when `reg_x = 0xF` the final VF is the carry flag; other registers are
untouched. -/
theorem c4_add_reg_carry (s : Chip8State) (reg_x reg_y : Nat)
    (hx : reg_x < 16) (hy : reg_y < 16)
    (hbx : s.registers reg_x < 256) (hby : s.registers reg_y < 256) :
    (chip8_op_add_reg s reg_x reg_y).registers 0xF =
      (if 255 < s.registers reg_x + s.registers reg_y then 1 else 0)
    ∧ (reg_x ≠ 0xF →
        (chip8_op_add_reg s reg_x reg_y).registers reg_x =
          (s.registers reg_x + s.registers reg_y) % 256)
    ∧ (∀ j, j ≠ reg_x → j ≠ 0xF →
        (chip8_op_add_reg s reg_x reg_y).registers j = s.registers j) := by
  unfold chip8_op_add_reg
  have hsum : (s.registers reg_x + s.registers reg_y) % 65536 =
      s.registers reg_x + s.registers reg_y := Nat.mod_eq_of_lt (by omega)
  refine ⟨?_, ?_, ?_⟩
  · show upd (upd s.registers reg_x ((s.registers reg_x + s.registers reg_y) % 256)) 0xF
      (if 255 < (s.registers reg_x + s.registers reg_y) % 65536 then 1 else 0) 0xF = _
    rw [upd_same, hsum]
  · intro hne
    show upd (upd s.registers reg_x ((s.registers reg_x + s.registers reg_y) % 256)) 0xF
      (if 255 < (s.registers reg_x + s.registers reg_y) % 65536 then 1 else 0) reg_x = _
    rw [upd_ne _ _ _ _ hne, upd_same]
  · intro j hj1 hj2
    show upd (upd s.registers reg_x ((s.registers reg_x + s.registers reg_y) % 256)) 0xF
      (if 255 < (s.registers reg_x + s.registers reg_y) % 65536 then 1 else 0) j = _
    rw [upd_ne _ _ _ _ hj2, upd_ne _ _ _ _ hj1]

/-- C4 witness: 250 + 10 gives Vx = 4 with VF = 1. -/
theorem c4_add_reg_carry_witness :
    (chip8_op_add_reg c4State 0 1).registers 0xF = 1
    ∧ (chip8_op_add_reg c4State 0 1).registers 0 = 4 := by
  obtain ⟨h1, h2, -⟩ := c4_add_reg_carry c4State 0 1 (by decide) (by decide)
    (by decide) (by decide)
  refine ⟨?_, ?_⟩
  · rw [h1]; decide
  · rw [h2 (by decide)]; decide

/-- C6: SHR (8XY6) and SHL (8XYE) first copy Vy into Vx, compute the flag
bit from that copied value (bit 0 for SHR, bit 7 for SHL), shift the copy,
and write VF last — the copy-from-Vy-before-shift quirk; other registers
are untouched. -/
theorem c6_shift_copy_quirk (s : Chip8State) (reg_x reg_y : Nat)
    (hx : reg_x < 16) (hy : reg_y < 16) (hby : s.registers reg_y < 256) :
    ((chip8_op_shr s reg_x reg_y).registers 0xF = s.registers reg_y &&& 1
      ∧ (reg_x ≠ 0xF →
          (chip8_op_shr s reg_x reg_y).registers reg_x = s.registers reg_y >>> 1)
      ∧ (∀ j, j ≠ reg_x → j ≠ 0xF →
          (chip8_op_shr s reg_x reg_y).registers j = s.registers j))
    ∧ ((chip8_op_shl s reg_x reg_y).registers 0xF = (s.registers reg_y >>> 7) &&& 1
      ∧ (reg_x ≠ 0xF →
          (chip8_op_shl s reg_x reg_y).registers reg_x = (s.registers reg_y <<< 1) % 256)
      ∧ (∀ j, j ≠ reg_x → j ≠ 0xF →
          (chip8_op_shl s reg_x reg_y).registers j = s.registers j)) := by
  have hmod : s.registers reg_y % 256 = s.registers reg_y := Nat.mod_eq_of_lt hby
  constructor
  · unfold chip8_op_shr
    refine ⟨?_, ?_, ?_⟩
    · show upd (upd (upd s.registers reg_x (s.registers reg_y % 256)) reg_x
          (upd s.registers reg_x (s.registers reg_y % 256) reg_x >>> 1)) 0xF
          (((upd s.registers reg_x (s.registers reg_y % 256) reg_x &&& 1) &&& 1) % 256) 0xF = _
      rw [upd_same, upd_same, hmod]
      simp only [Nat.and_one_is_mod]
      omega
    · intro hne
      show upd (upd (upd s.registers reg_x (s.registers reg_y % 256)) reg_x
          (upd s.registers reg_x (s.registers reg_y % 256) reg_x >>> 1)) 0xF
          (((upd s.registers reg_x (s.registers reg_y % 256) reg_x &&& 1) &&& 1) % 256) reg_x = _
      rw [upd_ne _ _ _ _ hne, upd_same, upd_same, hmod]
    · intro j hj1 hj2
      show upd (upd (upd s.registers reg_x (s.registers reg_y % 256)) reg_x
          (upd s.registers reg_x (s.registers reg_y % 256) reg_x >>> 1)) 0xF
          (((upd s.registers reg_x (s.registers reg_y % 256) reg_x &&& 1) &&& 1) % 256) j = _
      rw [upd_ne _ _ _ _ hj2, upd_ne _ _ _ _ hj1, upd_ne _ _ _ _ hj1]
  · unfold chip8_op_shl
    refine ⟨?_, ?_, ?_⟩
    · show upd (upd (upd s.registers reg_x (s.registers reg_y % 256)) reg_x
          ((upd s.registers reg_x (s.registers reg_y % 256) reg_x <<< 1) % 256)) 0xF
          ((((upd s.registers reg_x (s.registers reg_y % 256) reg_x >>> 7) &&& 1) &&& 1) % 256)
          0xF = _
      rw [upd_same, upd_same, hmod]
      simp only [Nat.and_one_is_mod]
      omega
    · intro hne
      show upd (upd (upd s.registers reg_x (s.registers reg_y % 256)) reg_x
          ((upd s.registers reg_x (s.registers reg_y % 256) reg_x <<< 1) % 256)) 0xF
          ((((upd s.registers reg_x (s.registers reg_y % 256) reg_x >>> 7) &&& 1) &&& 1) % 256)
          reg_x = _
      rw [upd_ne _ _ _ _ hne, upd_same, upd_same, hmod]
    · intro j hj1 hj2
      show upd (upd (upd s.registers reg_x (s.registers reg_y % 256)) reg_x
          ((upd s.registers reg_x (s.registers reg_y % 256) reg_x <<< 1) % 256)) 0xF
          ((((upd s.registers reg_x (s.registers reg_y % 256) reg_x >>> 7) &&& 1) &&& 1) % 256)
          j = _
      rw [upd_ne _ _ _ _ hj2, upd_ne _ _ _ _ hj1, upd_ne _ _ _ _ hj1]

/-- C6 witness: with V1 = 129, SHR V0,V1 gives V0 = 64 and VF = 1, and
SHL V0,V1 gives V0 = 2 and VF = 1. -/
theorem c6_shift_copy_quirk_witness :
    (chip8_op_shr c6State 0 1).registers 0xF = 1
    ∧ (chip8_op_shr c6State 0 1).registers 0 = 64
    ∧ (chip8_op_shl c6State 0 1).registers 0xF = 1
    ∧ (chip8_op_shl c6State 0 1).registers 0 = 2 := by
  obtain ⟨⟨hr1, hr2, -⟩, ⟨hl1, hl2, -⟩⟩ := c6_shift_copy_quirk c6State 0 1
    (by decide) (by decide) (by decide)
  refine ⟨?_, ?_, ?_, ?_⟩
  · rw [hr1]; decide
  · rw [hr2 (by decide)]; decide
  · rw [hl1]; decide
  · rw [hl2 (by decide)]; decide

/-- C8: RET (00EE) at `stack_ptr = 0` leaves the whole state unchanged and
reports a stack underflow event. -/
theorem c8_ret_at_sp0_underflow (s : Chip8State) (hsp : s.stack_ptr = 0) :
    chip8_op_pop s = (s, [Chip8Event.stackUnderflow]) := by
  unfold chip8_op_pop
  rw [if_pos hsp]

/-- C8 witness: RET on the all-zero state underflows. -/
theorem c8_ret_at_sp0_underflow_witness :
    chip8_op_pop zeroState = (zeroState, [Chip8Event.stackUnderflow]) :=
  c8_ret_at_sp0_underflow zeroState rfl

/-- C10: with `stack_ptr ≤ 15` (so the push is in capacity), CALL nnn
followed by RET restores both `program_counter` and `stack_ptr`, for every
target address. -/
theorem c10_call_ret_roundtrip (s : Chip8State) (nnn : Nat)
    (hsp : s.stack_ptr ≤ 15) (hpc : s.program_counter < 65536) :
    (chip8_op_pop (chip8_op_push s nnn).1).1.program_counter = s.program_counter
    ∧ (chip8_op_pop (chip8_op_push s nnn).1).1.stack_ptr = s.stack_ptr := by
  rw [chip8_op_push_ok s nnn (by omega)]
  rw [chip8_op_pop_ok _ (show (s.stack_ptr + 1) % 256 ≠ 0 by omega)]
  constructor
  · show upd s.stack s.stack_ptr (s.program_counter % 65536)
      (((s.stack_ptr + 1) % 256 + 255) % 256) % 65536 = s.program_counter
    have he : ((s.stack_ptr + 1) % 256 + 255) % 256 = s.stack_ptr := by omega
    rw [he, upd_same]
    omega
  · show ((s.stack_ptr + 1) % 256 + 255) % 256 = s.stack_ptr
    omega

/-- C10 witness: CALL 0x300 then RET from the freshly initialized state
restores `program_counter = 0x200` and `stack_ptr = 0`. -/
theorem c10_call_ret_roundtrip_witness :
    (chip8_op_pop (chip8_op_push (chip8_init zeroState) 0x300).1).1.program_counter = 0x200
    ∧ (chip8_op_pop (chip8_op_push (chip8_init zeroState) 0x300).1).1.stack_ptr = 0 := by
  obtain ⟨h1, h2⟩ := c10_call_ret_roundtrip (chip8_init zeroState) 0x300
    (by decide) (by decide)
  exact ⟨h1, h2⟩

/-- Both timers at 5, all-zero ROM (the fetched instruction 0x0000 is a
no-op). -/
def timerState : Chip8State :=
  { zeroState with program_counter := 0x200, delay_timer := 5, sound_timer := 5 }

/-- C3 counterexample: a single tick that accumulates exactly two full
1/60-second quanta decrements the timers once, not twice — the timer
update is an `if`, not a `while`: the accumulator is left holding a full
quantum and `delay_timer` goes 5 → 4 where the claim demands 5 → 3. -/
theorem c3_two_quanta_one_decrement_counterexample :
    (chip8_tick timerState 0 (2 * TIMER_DECREMENT_INTERVAL) 0).1.delay_timer = 4
    ∧ (chip8_tick timerState 0 (2 * TIMER_DECREMENT_INTERVAL) 0).1.sound_timer = 4
    ∧ (chip8_tick timerState 0 (2 * TIMER_DECREMENT_INTERVAL) 0).2.1 = TIMER_DECREMENT_INTERVAL
    ∧ (4 : Nat) ≠ 3 := by
  rw [chip8_tick_eq, if_pos (by norm_num [TIMER_DECREMENT_INTERVAL])]
  refine ⟨by decide, by decide, ?_, by decide⟩
  norm_num [TIMER_DECREMENT_INTERVAL]

/-- C3 (amended): after the elapsed time is added to the accumulator, the
tick decrements `delay_timer` and `sound_timer` at most once — exactly once
(floored at 0, via truncated subtraction) when the accumulator has reached
one 1/60-second quantum, subtracting a single quantum from the accumulator,
and not at all otherwise — regardless of how many full quanta the
accumulator holds. -/
theorem c3_tick_single_timer_decrement (s : Chip8State) (ltu e : ℚ) (r : Nat) :
    (TIMER_DECREMENT_INTERVAL ≤ ltu + e →
      (chip8_tick s ltu e r).1.delay_timer = (chip8_tick_fetch_execute s r).1.delay_timer - 1
      ∧ (chip8_tick s ltu e r).1.sound_timer = (chip8_tick_fetch_execute s r).1.sound_timer - 1
      ∧ (chip8_tick s ltu e r).2.1 = ltu + e - TIMER_DECREMENT_INTERVAL)
    ∧ (ltu + e < TIMER_DECREMENT_INTERVAL →
      (chip8_tick s ltu e r).1.delay_timer = (chip8_tick_fetch_execute s r).1.delay_timer
      ∧ (chip8_tick s ltu e r).1.sound_timer = (chip8_tick_fetch_execute s r).1.sound_timer
      ∧ (chip8_tick s ltu e r).2.1 = ltu + e) := by
  rw [chip8_tick_eq]
  constructor
  · intro h
    rw [if_pos h]
    refine ⟨?_, ?_, rfl⟩
    · show (if 0 < (chip8_tick_fetch_execute s r).1.delay_timer then
          (chip8_tick_fetch_execute s r).1.delay_timer - 1
        else (chip8_tick_fetch_execute s r).1.delay_timer) = _
      split_ifs <;> omega
    · show (if 0 < (chip8_tick_fetch_execute s r).1.sound_timer then
          (chip8_tick_fetch_execute s r).1.sound_timer - 1
        else (chip8_tick_fetch_execute s r).1.sound_timer) = _
      split_ifs <;> omega
  · intro h
    rw [if_neg (not_le.mpr h)]
    exact ⟨rfl, rfl, rfl⟩

/-- C3 witness: one tick with a full quantum accumulated decrements 5 → 4;
one tick with nothing accumulated leaves 5 unchanged. -/
theorem c3_tick_single_timer_decrement_witness :
    (chip8_tick timerState 0 (1 / 30 : ℚ) 0).1.delay_timer = 4
    ∧ (chip8_tick timerState 0 0 0).1.delay_timer = 5 := by
  obtain ⟨h1, -, -⟩ := (c3_tick_single_timer_decrement timerState 0 (1 / 30 : ℚ) 0).1
    (by norm_num [TIMER_DECREMENT_INTERVAL])
  obtain ⟨h2, -, -⟩ := (c3_tick_single_timer_decrement timerState 0 0 0).2
    (by norm_num [TIMER_DECREMENT_INTERVAL])
  refine ⟨?_, ?_⟩
  · rw [h1]; decide
  · rw [h2]; decide

/-- C7: if the fetched instruction is LD Vx,K (FX0A) then over the whole
tick: with no keypad entry pressed, `program_counter` is back at its
pre-tick value (+2 fetch then −2 replay) and all registers are unchanged;
with some key pressed, Vx receives the lowest-index pressed key (scan order
0..15) and `program_counter` advances by 2. -/
theorem c7_halt_key_tick (s : Chip8State) (ltu elapsed : ℚ) (randVal instr : Nat)
    (hinstr : instr = chip8_fetch s) (hpc : s.program_counter < 65536)
    (hF : chip8_decode_op instr = 0xF) (hA : chip8_decode_nn instr = 0x0A) :
    ((∀ i, i < 16 → s.keypad i = 0) →
      (chip8_tick s ltu elapsed randVal).1.program_counter = s.program_counter
      ∧ ∀ j, (chip8_tick s ltu elapsed randVal).1.registers j = s.registers j)
    ∧ (∀ k, k < 16 → s.keypad k ≠ 0 → (∀ j, j < k → s.keypad j = 0) →
      (chip8_tick s ltu elapsed randVal).1.registers (chip8_decode_x instr) = k
      ∧ (chip8_tick s ltu elapsed randVal).1.program_counter =
          (s.program_counter + 2) % 65536) := by
  subst hinstr
  have hexec : chip8_tick_fetch_execute s randVal =
      (chip8_op_halt_key { s with program_counter := (s.program_counter + 2) % 65536 }
        (chip8_decode_x (chip8_fetch s)), []) := by
    unfold chip8_tick_fetch_execute
    rw [chip8_execute_eq_F _ _ _ hF, chip8_execute_familyF_eq_0A _ _ hA]
  constructor
  · intro hnone
    have hhalt := chip8_op_halt_key_no_key
      { s with program_counter := (s.program_counter + 2) % 65536 }
      (chip8_decode_x (chip8_fetch s)) (fun i hi => hnone i hi)
    constructor
    · rw [chip8_tick_program_counter, hexec, hhalt]
      show ((s.program_counter + 2) % 65536 + 65534) % 65536 = s.program_counter
      omega
    · intro j
      rw [chip8_tick_registers, hexec, hhalt]
  · intro k hk hp hmin
    have hhalt := chip8_op_halt_key_pressed
      { s with program_counter := (s.program_counter + 2) % 65536 }
      (chip8_decode_x (chip8_fetch s)) k hk hp hmin
    constructor
    · rw [chip8_tick_registers, hexec, hhalt]
      show upd s.registers (chip8_decode_x (chip8_fetch s)) (k % 256)
        (chip8_decode_x (chip8_fetch s)) = k
      rw [upd_same]
      omega
    · rw [chip8_tick_program_counter, hexec, hhalt]

/-- The instruction at 0x200 is FX0A (LD V0,K); no key is pressed. -/
def c7State : Chip8State :=
  { zeroState with
    program_counter := 0x200
    memory := upd (upd (fun _ => 0) 0x200 0xF0) 0x201 0x0A }

/-- C7 witness: with no key pressed the tick leaves the program counter at
0x200, replaying the FX0A instruction. -/
theorem c7_halt_key_tick_witness :
    (chip8_tick c7State 0 0 0).1.program_counter = 0x200 := by
  obtain ⟨h1, -⟩ := (c7_halt_key_tick c7State 0 0 0 (chip8_fetch c7State) rfl
    (by decide) (by decide) (by decide)).1 (fun i _ => rfl)
  exact h1

/-- The four-byte ROM `AF FF F0 33`: `ANNN` with nnn = 0xFFF, then `FX33`. -/
def demoRom : List Nat := [0xAF, 0xFF, 0xF0, 0x33]

/-- The machine after init and ROM load. -/
def c2Start : Chip8State := chip8_load_rom (chip8_init zeroState) demoRom

/-- The machine after one tick, which executed `ANNN` with nnn = 0xFFF. -/
def c2Mid : Chip8State := (chip8_tick c2Start 0 0 0).1

/-- C2: a reachable refutation of the in-bounds claim.  After init, loading
the ROM `AF FF F0 33` and one tick, `index_register = 0xFFF` and the next
fetched instruction is FX33; `chip8_op_coded_conversion` then writes memory
indices 0xFFF, 0x1000 and 0x1001, and 0x1000 = 4096 is outside the
4096-byte memory array (no handler masks `index_register + i`). -/
theorem c2_fx33_writes_out_of_bounds :
    c2Mid.index_register = 0xFFF
    ∧ chip8_fetch c2Mid = 0xF033
    ∧ chip8_op_coded_conversion_mem_writes c2Mid = [0xFFF, 0x1000, 0x1001]
    ∧ 0x1000 ∈ chip8_op_coded_conversion_mem_writes c2Mid
    ∧ ¬(0x1000 ≤ 4095) := by
  have hmid : c2Mid = (chip8_tick_fetch_execute c2Start 0).1 := by
    show (chip8_tick c2Start 0 0 0).1 = _
    rw [chip8_tick_eq, if_neg (by norm_num [TIMER_DECREMENT_INTERVAL])]
  refine ⟨?_, ?_, ?_, ?_, by decide⟩ <;> rw [hmid] <;> decide

/-- Of the sprite byte 0x80 only bit index 0 (the leftmost pixel) is set. -/
theorem sprite_bit_128 : ∀ j, j < 8 → sprite_bit 128 j = 1 → j = 0 := by decide

/-- C5: DXYN XOR-blits the n-row, 8-bit-wide sprite at
`(Vx mod 64, Vy mod 32)` clipping at the frame edge (cells outside the
drawn in-frame pixels, in particular any would-be wrapped cells, are
untouched), always overwrites VF with 1 iff some drawn set pixel landed on
a cell that already held 1 (else 0), and leaves the other registers alone;
consequently drawing a one-pixel sprite twice at the same coordinates onto
a clear cell turns it on then back off, with VF = 0 after the first draw
and VF = 1 after the second. -/
theorem c5_draw_xor_clip_collision (s : Chip8State) (reg_x reg_y value : Nat)
    (hmem : ∀ r, r < value → s.index_register + r < 4096) :
    (∀ i, (chip8_op_draw s reg_x reg_y value).vram i =
        if chip8_draw_cover s reg_x reg_y value i then s.vram i ^^^ 1 else s.vram i)
    ∧ ((chip8_op_draw s reg_x reg_y value).registers 0xF =
        if chip8_draw_collision s reg_x reg_y value then 1 else 0)
    ∧ (∀ j, j ≠ 0xF → (chip8_op_draw s reg_x reg_y value).registers j = s.registers j)
    ∧ (value = 1 → s.memory s.index_register = 0x80 → reg_x ≠ 0xF → reg_y ≠ 0xF →
        s.vram ((s.registers reg_y % 32) * 64 + s.registers reg_x % 64) = 0 →
        (chip8_op_draw s reg_x reg_y value).vram
            ((s.registers reg_y % 32) * 64 + s.registers reg_x % 64) = 1
        ∧ (chip8_op_draw s reg_x reg_y value).registers 0xF = 0
        ∧ (chip8_op_draw (chip8_op_draw s reg_x reg_y value) reg_x reg_y value).vram
            ((s.registers reg_y % 32) * 64 + s.registers reg_x % 64) = 0
        ∧ (chip8_op_draw (chip8_op_draw s reg_x reg_y value) reg_x reg_y value).registers
            0xF = 1) := by
  obtain ⟨hv, hf, hr, hm, hidx, hpc⟩ := chip8_op_draw_spec s reg_x reg_y value
  refine ⟨hv, hf, hr, ?_⟩
  intro h1 hsprite hxF hyF hcell
  subst h1
  have hx64 : s.registers reg_x % 64 < 64 := Nat.mod_lt _ (by norm_num)
  have hy32 : s.registers reg_y % 32 < 32 := Nat.mod_lt _ (by norm_num)
  have hit0 : draw_hit (s.memory (s.index_register + 0)) (s.registers reg_x % 64)
      (s.registers reg_y % 32) 0 0 := by
    rw [Nat.add_zero, hsprite]
    exact ⟨by omega, by omega, by decide⟩
  have hcov : chip8_draw_cover s reg_x reg_y 1 ((s.registers reg_y % 32) * 64 +
      s.registers reg_x % 64) :=
    ⟨0, by omega, 0, by omega, hit0, by omega⟩
  have hnocol : ¬chip8_draw_collision s reg_x reg_y 1 := by
    rintro ⟨r, hr1, j, hj, hitj, hvj⟩
    have hr0 : r = 0 := by omega
    subst hr0
    rw [Nat.add_zero, hsprite] at hitj
    have hj0 : j = 0 := sprite_bit_128 j hj hitj.2.2
    subst hj0
    simp only [Nat.add_zero] at hvj
    omega
  have hvram1 : (chip8_op_draw s reg_x reg_y 1).vram
      ((s.registers reg_y % 32) * 64 + s.registers reg_x % 64) = 1 := by
    rw [hv _, if_pos hcov, hcell]
    decide
  have hvf1 : (chip8_op_draw s reg_x reg_y 1).registers 0xF = 0 := by
    rw [hf, if_neg hnocol]
  refine ⟨hvram1, hvf1, ?_, ?_⟩
  all_goals {
    obtain ⟨hv2, hf2, hr2, -, -, -⟩ := chip8_op_draw_spec (chip8_op_draw s reg_x reg_y 1)
      reg_x reg_y 1
    have hrx : (chip8_op_draw s reg_x reg_y 1).registers reg_x = s.registers reg_x :=
      hr reg_x hxF
    have hry : (chip8_op_draw s reg_x reg_y 1).registers reg_y = s.registers reg_y :=
      hr reg_y hyF
    have hit0' : draw_hit ((chip8_op_draw s reg_x reg_y 1).memory
        ((chip8_op_draw s reg_x reg_y 1).index_register + 0))
        ((chip8_op_draw s reg_x reg_y 1).registers reg_x % 64)
        ((chip8_op_draw s reg_x reg_y 1).registers reg_y % 32) 0 0 := by
      rw [hm, hidx, hrx, hry, Nat.add_zero, hsprite]
      exact ⟨by omega, by omega, by decide⟩
    have hcov2 : chip8_draw_cover (chip8_op_draw s reg_x reg_y 1) reg_x reg_y 1
        ((s.registers reg_y % 32) * 64 + s.registers reg_x % 64) :=
      ⟨0, by omega, 0, by omega, hit0', by rw [hrx, hry]; omega⟩
    have hcol2 : chip8_draw_collision (chip8_op_draw s reg_x reg_y 1) reg_x reg_y 1 := by
      refine ⟨0, by omega, 0, by omega, hit0', ?_⟩
      rw [hrx, hry]
      simp only [Nat.add_zero]
      exact hvram1
    first
      | (rw [hv2 _, if_pos hcov2, hvram1]; decide)
      | (rw [hf2, if_pos hcol2])
  }

/-- Every memory byte holds the one-pixel sprite 0x80; drawing at the
origin with V0 = V1 = 0. -/
def drawState : Chip8State := { zeroState with memory := fun _ => 0x80 }

/-- C5 witness: on a cleared frame, drawing the one-pixel sprite at the
origin sets cell 0 with VF = 0, and drawing it again clears cell 0 with
VF = 1. -/
theorem c5_draw_xor_clip_collision_witness :
    (chip8_op_draw drawState 0 1 1).vram 0 = 1
    ∧ (chip8_op_draw drawState 0 1 1).registers 0xF = 0
    ∧ (chip8_op_draw (chip8_op_draw drawState 0 1 1) 0 1 1).vram 0 = 0
    ∧ (chip8_op_draw (chip8_op_draw drawState 0 1 1) 0 1 1).registers 0xF = 1 := by
  obtain ⟨-, -, -, h4⟩ := c5_draw_xor_clip_collision drawState 0 1 1
    (fun r hr => by show (0 : Nat) + r < 4096; omega)
  obtain ⟨ha, hb, hc, hd⟩ := h4 rfl rfl (by decide) (by decide) rfl
  exact ⟨ha, hb, hc, hd⟩

/-- C9: every vram cell is 0 or 1 after `chip8_init`, the property is
preserved by executing any instruction (CLS writes 0, DRW XORs a cell with
1), and no instruction other than CLS and DRW writes to vram at all. -/
theorem c9_vram_binary_invariant :
    (∀ s : Chip8State, ∀ i, i < 2048 → (chip8_init s).vram i = 0 ∨ (chip8_init s).vram i = 1)
    ∧ (∀ (s : Chip8State) (instruction randVal : Nat),
        (∀ i, i < 2048 → s.vram i = 0 ∨ s.vram i = 1) →
        ∀ i, i < 2048 → (chip8_execute s instruction randVal).1.vram i = 0
          ∨ (chip8_execute s instruction randVal).1.vram i = 1)
    ∧ (∀ (s : Chip8State) (instruction randVal : Nat),
        ¬(chip8_decode_op instruction = 0x0 ∧ chip8_decode_nn instruction = 0xE0) →
        chip8_decode_op instruction ≠ 0xD →
        (chip8_execute s instruction randVal).1.vram = s.vram) := by
  refine ⟨?_, ?_, ?_⟩
  · intro s i hi
    left
    show (if i < 64 * 32 then 0 else s.vram i) = 0
    rw [if_pos (by omega)]
  · intro s instruction randVal hbin i hi
    rcases chip8_execute_vram_cases s instruction randVal i with h | h | h
    · rw [h]; exact hbin i hi
    · left; exact h
    · rw [h]
      rcases hbin i hi with h0 | h1
      · rw [h0]; right; rfl
      · rw [h1]; left; rfl
  · exact fun s instruction randVal hc hd =>
      chip8_execute_vram_unchanged s instruction randVal hc hd

/-- C9 witness: executing CLS on the all-zero state keeps cell 0 in {0, 1}. -/
theorem c9_vram_binary_invariant_witness :
    (chip8_execute zeroState 0x00E0 0).1.vram 0 = 0
    ∨ (chip8_execute zeroState 0x00E0 0).1.vram 0 = 1 :=
  c9_vram_binary_invariant.2.1 zeroState 0x00E0 0 (fun _ _ => Or.inl rfl) 0 (by omega)
